import Mathlib

/-!
Shallow embedding of the oscoin graph-api repository
(src/src/lib.rs, src/src/types.rs, src/examples/main.rs), together with
theorems checking the natural-language specification against it.

Machine integers: the repository's `u64` ids and `u32` counters are only
compared, hashed and stored (never overflowed by the code under study), so
they are modelled as `Nat`; the `f64` weights are never inspected by the
properties below and are modelled as `ℚ` (only the literals 0.0, 0.3 and
0.7 occur in the source).
-/

namespace Oscoin

/-- Association list with sorted insertion, modelling Rust's
`BTreeMap<u64, V>` as used by `Network` in examples/main.rs: `insert`
replaces the entry when the key is already present, `get` returns the
first entry with the key, `values` iterates entries in list order
(ascending keys on maps built by `insert`). -/
abbrev BTMap (V : Type) : Type := List (Nat × V)

def BTMap.insert {V : Type} (k : Nat) (v : V) : BTMap V → BTMap V
  | [] => [(k, v)]
  | (k', v') :: rest =>
    if k < k' then (k, v) :: (k', v') :: rest
    else if k = k' then (k, v) :: rest
    else (k', v') :: BTMap.insert k v rest

def BTMap.get {V : Type} (k : Nat) : BTMap V → Option V
  | [] => none
  | (k', v') :: rest => if k = k' then some v' else BTMap.get k rest

def BTMap.remove {V : Type} (k : Nat) : BTMap V → BTMap V
  | [] => []
  | (k', v') :: rest => if k = k' then rest else (k', v') :: BTMap.remove k rest

def BTMap.values {V : Type} (m : BTMap V) : List V := m.map Prod.snd

/-! Types from src/src/types.rs. -/

/-- The type of a node (src/src/types.rs lines 19-24): a user or a
project, each carrying an accumulated contribution counter. -/
inductive NodeType
  | User (contributions_to_all_projects : Nat)
  | Project (contributions_from_all_users : Nat)
deriving DecidableEq, Repr

/-- NodeType::total_contributions (src/src/types.rs lines 59-68). -/
def NodeType.total_contributions : NodeType → Nat
  | .User c => c
  | .Project c => c

/-- The type of an edge (src/src/types.rs lines 111-122); the payload of
the first four constructors is a number of contributions. -/
inductive EdgeType
  | ProjectToUserContribution (c : Nat)
  | UserToProjectContribution (c : Nat)
  | ProjectToUserMembership (c : Nat)
  | UserToProjectMembership (c : Nat)
  | Dependency
deriving DecidableEq, Repr

/-- Companion tag for an EdgeType (src/src/types.rs lines 127-133), used
as the HashMap key of `HyperParameters.edge_weights`. -/
inductive EdgeTypeTag
  | ProjectToUserContribution
  | UserToProjectContribution
  | ProjectToUserMembership
  | UserToProjectMembership
  | Dependency
deriving DecidableEq, Repr

/-- EdgeType::to_tag (src/src/types.rs lines 136-144). -/
def EdgeType.to_tag : EdgeType → EdgeTypeTag
  | .ProjectToUserContribution _ => .ProjectToUserContribution
  | .UserToProjectContribution _ => .UserToProjectContribution
  | .ProjectToUserMembership _ => .ProjectToUserMembership
  | .UserToProjectMembership _ => .UserToProjectMembership
  | .Dependency => .Dependency

/-- EdgeType::total_contributions (src/src/types.rs lines 146-154). -/
def EdgeType.total_contributions : EdgeType → Nat
  | .ProjectToUserContribution c => c
  | .UserToProjectContribution c => c
  | .ProjectToUserMembership c => c
  | .UserToProjectMembership c => c
  | .Dependency => 0

/-- Global damping factors (src/src/types.rs lines 213-218); the `f64`
fields are modelled as rationals. -/
structure DampingFactors where
  project : ℚ
  account : ℚ
deriving DecidableEq, Repr

/-- First-match lookup in an association list, modelling
`HashMap::get` on `edge_weights` (keys inserted by a `HashMap` are
unique, so first-match agrees with the map lookup). -/
def weightsGet {W : Type} (tag : EdgeTypeTag) : List (EdgeTypeTag × W) → Option W
  | [] => none
  | (t, w) :: rest => if tag = t then some w else weightsGet tag rest

/-- Global parameters of the graph algorithm (src/src/types.rs lines
222-231); `edge_weights: HashMap<EdgeTypeTag, W>` is modelled as an
association list with unique keys. -/
structure HyperParameters (W : Type) where
  pruning_threshold : W
  damping_factors : DampingFactors
  r_value : Nat
  edge_weights : List (EdgeTypeTag × W)

/-- HyperParameters::get_param (src/src/types.rs lines 236-240): a
`HashMap` lookup whose failure is a runtime panic
(`.unwrap_or_else(|| panic!(...))`); the panic is modelled as `none`. -/
def HyperParameters.get_param {W : Type} (hp : HyperParameters W)
    (edge_type_tag : EdgeTypeTag) : Option W :=
  weightsGet edge_type_tag hp.edge_weights

/-! The example `Network` graph from src/examples/main.rs. -/

/-- Node payload of the example: `type NodeData = Vec<(&'static str, Bytes)>`
(examples/main.rs line 14). -/
abbrev NodeData : Type := List (String × List Nat)

/-- Edge payload of the example: `type EdgeData = Bytes` (line 17). -/
abbrev EdgeData : Type := List Nat

/-- The single edge-type value the example's `add_edge` ever stores:
`types::EdgeType::ContributionFromUser` (examples/main.rs line 228).
This variant belongs to an earlier schema of `types::EdgeType` and has no
counterpart in the current src/src/types.rs, so it is embedded as its own
one-constructor type. -/
inductive MainEdgeType
  | ContributionFromUser
deriving DecidableEq, Repr

/-- A node of the example graph (examples/main.rs lines 20-24). -/
structure Node where
  id : Nat
  data : NodeData
  node_type : NodeType
deriving DecidableEq, Repr

/-- An edge of the example graph (examples/main.rs lines 33-40). The Rust
fields `from`/`to` are named `source`/`target` here (after the trait
accessors `Edge::source`/`Edge::target` that expose them; `from` is
reserved in Lean). -/
structure Edge where
  id : Nat
  source : Nat
  target : Nat
  data : EdgeData
  weight : ℚ
  edge_type : MainEdgeType
deriving DecidableEq, Repr

/-- The example graph (examples/main.rs lines 94-97): two `BTreeMap`s
keyed by id. -/
structure Network where
  edges : BTMap Edge
  nodes : BTMap Node
deriving DecidableEq, Repr

/-- `Default` impl for Network (examples/main.rs lines 99-106). -/
def Network.default : Network := { edges := [], nodes := [] }

/-- Graph::get_node for Network (examples/main.rs lines 117-119). -/
def Network.get_node (g : Network) (id : Nat) : Option Node :=
  BTMap.get id g.nodes

/-- Graph::get_edge for Network (examples/main.rs lines 121-123). -/
def Network.get_edge (g : Network) (id : Nat) : Option Edge :=
  BTMap.get id g.edges

/-- Body of the loop of Graph::neighbors (examples/main.rs lines 136-144),
processing the edges in map-value order; the `.unwrap()` on the node
lookup of the opposite endpoint is modelled in `Option`, so a failed
lookup (a Rust panic) makes the whole traversal `none`. -/
def Network.neighborsAux (g : Network) (node : Nat) : List Edge → Option (List Node)
  | [] => some []
  | e :: rest =>
    if e.source = node then
      match BTMap.get e.target g.nodes with
      | none => none
      | some n => (Network.neighborsAux g node rest).map (fun ns => n :: ns)
    else if e.target = node then
      match BTMap.get e.source g.nodes with
      | none => none
      | some n => (Network.neighborsAux g node rest).map (fun ns => n :: ns)
    else Network.neighborsAux g node rest

/-- Graph::neighbors for Network (examples/main.rs lines 132-149):
`some ns` when every unwrap succeeds, `none` when the Rust code panics. -/
def Network.neighbors (g : Network) (node : Nat) : Option (List Node) :=
  Network.neighborsAux g node (BTMap.values g.edges)

/-- Graph::edges for Network (examples/main.rs lines 151-162): all edges
having `node` as source or target, in map-value order. (Named `edgesOf`
because `edges` is the struct field.) -/
def Network.edgesOf (g : Network) (node : Nat) : List Edge :=
  (BTMap.values g.edges).filter (fun e => e.source = node || e.target = node)

/-- GraphWriter::add_node for Network (examples/main.rs lines 194-205).
The stored node type is the constant `types::NodeType::Project` (the
example predates the payload-carrying schema of src/src/types.rs; the
payload is fixed at 0 here — no property below depends on it, only on the
constant being the same for every insertion). -/
def Network.add_node (g : Network) (id : Nat) (data : NodeData) : Network :=
  { g with
    nodes := BTMap.insert id
      { id := id, data := data, node_type := NodeType.Project 0 } g.nodes }

/-- GraphWriter::remove_node for Network (examples/main.rs lines 207-209). -/
def Network.remove_node (g : Network) (id : Nat) : Network :=
  { g with nodes := BTMap.remove id g.nodes }

/-- GraphWriter::add_edge for Network (examples/main.rs lines 211-231):
inserts an edge with weight 0.0 and the constant edge type. -/
def Network.add_edge (g : Network) (id source target : Nat) (data : EdgeData) : Network :=
  { g with
    edges := BTMap.insert id
      { id := id, source := source, target := target, data := data,
        weight := 0, edge_type := MainEdgeType.ContributionFromUser } g.edges }

/-- GraphWriter::remove_edge for Network (examples/main.rs lines 233-235). -/
def Network.remove_edge (g : Network) (id : Nat) : Network :=
  { g with edges := BTMap.remove id g.edges }

/-- Referential integrity of a Network: every edge endpoint id is a key of
the node map (the invariant of spec §3: "both endpoints of an edge must
reference Nodes currently present"). -/
def Network.intact (g : Network) : Prop :=
  ∀ e ∈ BTMap.values g.edges,
    (BTMap.get e.source g.nodes).isSome ∧ (BTMap.get e.target g.nodes).isSome

instance (g : Network) : Decidable (Network.intact g) := by
  unfold Network.intact; infer_instance

/-! The ledger example from the `ledger` module of src/examples/main.rs. -/

/-- A dependency record consumed by checkpoint (examples/main.rs lines
295-298). -/
structure Dep where
  node_id : Nat
  is_added : Bool

/-- A contribution record consumed by checkpoint (examples/main.rs lines
300-302). -/
structure Contrib where
  node_id : Nat

/-- The ledger-local edge-type enum (examples/main.rs lines 304-308),
with its discriminant values. -/
inductive LedgerEdgeType
  | Dependency
  | ContributionFrom
  | ContributionTo
deriving DecidableEq, Repr

/-- The `as u8` discriminant of a LedgerEdgeType (0x01/0x02/0x03). -/
def LedgerEdgeType.code : LedgerEdgeType → Nat
  | .Dependency => 0x01
  | .ContributionFrom => 0x02
  | .ContributionTo => 0x03

/-- LedgerEdgeType::weight (examples/main.rs lines 311-317). -/
def LedgerEdgeType.weight : LedgerEdgeType → ℚ
  | .Dependency => 7/10
  | .ContributionFrom => 3/10
  | .ContributionTo => 3/10

/-- Ledger::checkpoint (examples/main.rs lines 329-384), acting on the
graph obtained by `self.api.graph_mut(&Layer("osrank")).unwrap()`.
The parameter `eid` abstracts the `edge_id` helper (lines 387-392, a
`DefaultHasher` over the ordered pair `(from, to)` whose concrete values
are implementation-defined); every property proved below holds for an
arbitrary such function, because checkpoint only ever compares ids
produced from identical argument pairs. -/
def Ledger.checkpoint (eid : Nat → Nat → Nat) (graph : Network) (id : Nat)
    (version : List Nat) (hash : List Nat)
    (deps : List Dep) (contribs : List Contrib) : Network :=
  let node_id := id
  let g1 := Network.add_node graph node_id
    [("version", version), ("hash", hash)]
  let g2 := deps.foldl (fun g d =>
    let e := eid node_id d.node_id
    if d.is_added then
      Network.add_edge g e node_id d.node_id [LedgerEdgeType.Dependency.code]
    else
      Network.remove_edge g e) g1
  contribs.foldl (fun g c =>
    let ga := Network.add_edge g (eid node_id c.node_id) node_id c.node_id
      [LedgerEdgeType.ContributionFrom.code]
    Network.add_edge ga (eid node_id c.node_id) c.node_id node_id
      [LedgerEdgeType.ContributionTo.code]) g2

/-! Layer registry. -/

/-- Modelled from the spec: `GraphAPI` (src/src/lib.rs lines 69-84) is a
trait only — no implementation of the layer registry exists under src/.
Following spec §4.4, the registry maps layer names to graphs. -/
abbrev Registry : Type := List (String × Network)

/-- Modelled from the spec: `GraphAPI::graph` — "unknown layer names yield
`None`" (spec §4.4). -/
def Registry.graphOf (layer : String) : Registry → Option Network
  | [] => none
  | (name, g) :: rest =>
    if layer = name then some g else Registry.graphOf layer rest

/-- Removes the first entry of the given layer name. -/
def Registry.eraseLayer (layer : String) : Registry → Registry
  | [] => []
  | (name, g) :: rest =>
    if layer = name then rest else (name, g) :: Registry.eraseLayer layer rest

/-- Modelled from the spec: `GraphAPI::remove_layer` (declared at
src/src/lib.rs lines 76-77: "The layer must not contain any nodes").
Spec §4.4 requires it to fail — "the implementation must reject removal"
— when the layer is non-empty, signalled "as a distinguishable error to
the caller" (§7 taxonomy (b)); a missing layer is a silent no-op per §7's
propagation policy for not-found conditions. -/
def Registry.remove_layer (r : Registry) (layer : String) : Except String Registry :=
  match Registry.graphOf layer r with
  | none => Except.ok r
  | some g =>
    if g.nodes = [] then Except.ok (Registry.eraseLayer layer r)
    else Except.error "layer contains nodes"

/-! Concrete instances used by witnesses and counterexamples. -/

/-- A HyperParameters instance with an empty `edge_weights` map. -/
def hpEmpty : HyperParameters Nat :=
  { pruning_threshold := 0, damping_factors := { project := 0, account := 0 },
    r_value := 0, edge_weights := [] }

/-- A HyperParameters instance whose `edge_weights` covers every
EdgeTypeTag. -/
def hpFull : HyperParameters Nat :=
  { pruning_threshold := 0, damping_factors := { project := 0, account := 0 },
    r_value := 10,
    edge_weights :=
      [(EdgeTypeTag.ProjectToUserContribution, 1),
       (EdgeTypeTag.UserToProjectContribution, 2),
       (EdgeTypeTag.ProjectToUserMembership, 3),
       (EdgeTypeTag.UserToProjectMembership, 4),
       (EdgeTypeTag.Dependency, 5)] }

/-- A two-node, one-edge graph (nodes 1 and 2, edge 10 from 1 to 2); it
satisfies referential integrity. -/
def exGraph : Network :=
  Network.add_edge (Network.add_node (Network.add_node Network.default 1 []) 2 []) 10 1 2 []

/-- A graph holding node 2 and a dangling edge 3 from the absent id 1 to
node 2 (reachable through the GraphWriter API, which checks no endpoint). -/
def danglingGraph : Network :=
  Network.add_edge (Network.add_node Network.default 2 []) 3 1 2 []

/-- A graph holding only an edge 3 between two absent node ids. -/
def orphanGraph : Network :=
  Network.add_edge Network.default 3 1 2 []

/-- Nodes 1 and 2, an edge 10 from 1 to 2, and a dangling edge 11 from 1
to the absent id 4. -/
def partlyDanglingGraph : Network :=
  Network.add_edge
    (Network.add_edge (Network.add_node (Network.add_node Network.default 1 []) 2 []) 10 1 2 [])
    11 1 4 []

/-- A graph holding the single node 1. -/
def oneNodeGraph : Network := Network.add_node Network.default 1 []

/-- The edge stored under id 10 in `exGraph` and `partlyDanglingGraph`. -/
def exEdge : Edge :=
  { id := 10, source := 1, target := 2, data := [], weight := 0,
    edge_type := MainEdgeType.ContributionFromUser }

/-- A registry whose "osrank" layer still holds a node. -/
def busyRegistry : Registry := [("osrank", oneNodeGraph)]

/-! Helper lemmas about the map and traversal operations. -/

theorem BTMap.get_insert_self {V : Type} (k : Nat) (v : V) (m : BTMap V) :
    BTMap.get k (BTMap.insert k v m) = some v := by
  induction m with
  | nil => simp [BTMap.insert, BTMap.get]
  | cons p rest ih =>
    obtain ⟨k', v'⟩ := p
    by_cases h1 : k < k'
    · simp [BTMap.insert, h1, BTMap.get]
    · by_cases h2 : k = k'
      · simp [BTMap.insert, h1, h2, BTMap.get]
      · simp [BTMap.insert, h1, h2, BTMap.get, ih]

theorem BTMap.insert_insert_same {V : Type} (k : Nat) (v v' : V) (m : BTMap V) :
    BTMap.insert k v (BTMap.insert k v' m) = BTMap.insert k v m := by
  induction m with
  | nil => simp [BTMap.insert, Nat.lt_irrefl]
  | cons p rest ih =>
    obtain ⟨k', w⟩ := p
    by_cases h1 : k < k'
    · simp [BTMap.insert, h1, Nat.lt_irrefl]
    · by_cases h2 : k = k'
      · simp [BTMap.insert, h1, h2, Nat.lt_irrefl]
      · simp [BTMap.insert, h1, h2, ih]

theorem weightsGet_isSome_of_mem_keys {W : Type} (t : EdgeTypeTag)
    (l : List (EdgeTypeTag × W)) (h : t ∈ l.map Prod.fst) :
    (weightsGet t l).isSome = true := by
  induction l with
  | nil => simp at h
  | cons p rest ih =>
    obtain ⟨t', w⟩ := p
    by_cases ht : t = t'
    · simp [weightsGet, ht]
    · have : t ∈ rest.map Prod.fst := by
        simp only [List.map_cons, List.mem_cons] at h
        exact h.resolve_left ht
      simp [weightsGet, ht, ih this]

theorem neighborsAux_isSome (g : Network) (q : Nat) (l : List Edge)
    (h : ∀ e ∈ l, (BTMap.get e.source g.nodes).isSome ∧
      (BTMap.get e.target g.nodes).isSome) :
    ∃ ns, Network.neighborsAux g q l = some ns := by
  induction l with
  | nil => exact ⟨[], rfl⟩
  | cons e rest ih =>
    obtain ⟨ns, hns⟩ := ih (fun e' he' => h e' (List.mem_cons_of_mem _ he'))
    by_cases h1 : e.source = q
    · obtain ⟨n, hn⟩ := Option.isSome_iff_exists.mp (h e (List.mem_cons_self _ _)).2
      exact ⟨n :: ns, by simp [Network.neighborsAux, h1, hn, hns]⟩
    · by_cases h2 : e.target = q
      · obtain ⟨n, hn⟩ := Option.isSome_iff_exists.mp (h e (List.mem_cons_self _ _)).1
        exact ⟨n :: ns, by simp [Network.neighborsAux, h1, h2, hn, hns]⟩
      · exact ⟨ns, by simp [Network.neighborsAux, h1, h2, hns]⟩

theorem neighborsAux_eq_nil (g : Network) (q : Nat) (l : List Edge)
    (h : ∀ e ∈ l, e.source ≠ q ∧ e.target ≠ q) :
    Network.neighborsAux g q l = some [] := by
  induction l with
  | nil => rfl
  | cons e rest ih =>
    have h1 := h e (List.mem_cons_self _ _)
    rw [Network.neighborsAux, if_neg h1.1, if_neg h1.2]
    exact ih (fun e' he' => h e' (List.mem_cons_of_mem _ he'))

theorem neighborsAux_mem_of_source (g : Network) (q : Nat) (l : List Edge) (e : Edge)
    (he : e ∈ l) (hq : e.source = q) (n : Node)
    (hn : BTMap.get e.target g.nodes = some n)
    (ns : List Node) (hns : Network.neighborsAux g q l = some ns) : n ∈ ns := by
  induction l generalizing ns with
  | nil => simp at he
  | cons e' rest ih =>
    rcases List.mem_cons.mp he with rfl | he'
    · rw [Network.neighborsAux, if_pos hq, hn] at hns
      obtain ⟨ns', _, hcons⟩ := Option.map_eq_some'.mp hns
      rw [← hcons]
      exact List.mem_cons_self _ _
    · rw [Network.neighborsAux] at hns
      by_cases h1 : e'.source = q
      · rw [if_pos h1] at hns
        cases hg : BTMap.get e'.target g.nodes with
        | none => rw [hg] at hns; exact absurd hns (by simp)
        | some m =>
          rw [hg] at hns
          obtain ⟨ns', hns', hcons⟩ := Option.map_eq_some'.mp hns
          rw [← hcons]
          exact List.mem_cons_of_mem _ (ih he' ns' hns')
      · by_cases h2 : e'.target = q
        · rw [if_neg h1, if_pos h2] at hns
          cases hg : BTMap.get e'.source g.nodes with
          | none => rw [hg] at hns; exact absurd hns (by simp)
          | some m =>
            rw [hg] at hns
            obtain ⟨ns', hns', hcons⟩ := Option.map_eq_some'.mp hns
            rw [← hcons]
            exact List.mem_cons_of_mem _ (ih he' ns' hns')
        · rw [if_neg h1, if_neg h2] at hns
          exact ih he' ns hns

theorem neighborsAux_mem_of_target (g : Network) (q : Nat) (l : List Edge) (e : Edge)
    (he : e ∈ l) (hq1 : e.source ≠ q) (hq2 : e.target = q) (n : Node)
    (hn : BTMap.get e.source g.nodes = some n)
    (ns : List Node) (hns : Network.neighborsAux g q l = some ns) : n ∈ ns := by
  induction l generalizing ns with
  | nil => simp at he
  | cons e' rest ih =>
    rcases List.mem_cons.mp he with rfl | he'
    · rw [Network.neighborsAux, if_neg hq1, if_pos hq2, hn] at hns
      obtain ⟨ns', _, hcons⟩ := Option.map_eq_some'.mp hns
      rw [← hcons]
      exact List.mem_cons_self _ _
    · rw [Network.neighborsAux] at hns
      by_cases h1 : e'.source = q
      · rw [if_pos h1] at hns
        cases hg : BTMap.get e'.target g.nodes with
        | none => rw [hg] at hns; exact absurd hns (by simp)
        | some m =>
          rw [hg] at hns
          obtain ⟨ns', hns', hcons⟩ := Option.map_eq_some'.mp hns
          rw [← hcons]
          exact List.mem_cons_of_mem _ (ih he' ns' hns')
      · by_cases h2 : e'.target = q
        · rw [if_neg h1, if_pos h2] at hns
          cases hg : BTMap.get e'.source g.nodes with
          | none => rw [hg] at hns; exact absurd hns (by simp)
          | some m =>
            rw [hg] at hns
            obtain ⟨ns', hns', hcons⟩ := Option.map_eq_some'.mp hns
            rw [← hcons]
            exact List.mem_cons_of_mem _ (ih he' ns' hns')
        · rw [if_neg h1, if_neg h2] at hns
          exact ih he' ns hns

theorem neighborsAux_none_of_bad (g : Network) (q : Nat) (l : List Edge) (e : Edge)
    (he : e ∈ l)
    (hbad : (e.source = q ∧ BTMap.get e.target g.nodes = none) ∨
      (e.source ≠ q ∧ e.target = q ∧ BTMap.get e.source g.nodes = none)) :
    Network.neighborsAux g q l = none := by
  induction l with
  | nil => simp at he
  | cons e' rest ih =>
    rcases List.mem_cons.mp he with rfl | he'
    · rcases hbad with ⟨h1, h2⟩ | ⟨h1, h2, h3⟩
      · rw [Network.neighborsAux, if_pos h1, h2]
      · rw [Network.neighborsAux, if_neg h1, if_pos h2, h3]
    · have hrest := ih he'
      rw [Network.neighborsAux]
      by_cases h1 : e'.source = q
      · rw [if_pos h1]
        cases hg : BTMap.get e'.target g.nodes with
        | none => rfl
        | some m => rw [hrest]; rfl
      · by_cases h2 : e'.target = q
        · rw [if_neg h1, if_pos h2]
          cases hg : BTMap.get e'.source g.nodes with
          | none => rfl
          | some m => rw [hrest]; rfl
        · rw [if_neg h1, if_neg h2]
          exact hrest

/-! Claim theorems. -/

/-- C1 (counterexample): `get_param` is not a total, construction-validated
lookup — on a HyperParameters instance whose `edge_weights` map lacks a
tag, the lookup at the point of access fails (the Rust code panics,
modelled as `none`); nothing at construction prevents such an instance. -/
theorem c1_counterexample : hpEmpty.get_param EdgeTypeTag.Dependency = none := rfl

/-- C1 (amended): for a HyperParameters instance whose `edge_weights` map
covers the full EdgeTypeTag space, `get_param` succeeds for every tag in
that space. -/
theorem c1_get_param_total_on_covered {W : Type} (hp : HyperParameters W)
    (hcov : ∀ t : EdgeTypeTag, t ∈ hp.edge_weights.map Prod.fst)
    (t : EdgeTypeTag) :
    (hp.get_param t).isSome = true :=
  weightsGet_isSome_of_mem_keys t hp.edge_weights (hcov t)

/-- C1 (witness): on the fully covered instance `hpFull`, `get_param`
succeeds on the Dependency tag. -/
theorem c1_witness : (hpFull.get_param EdgeTypeTag.Dependency).isSome = true :=
  c1_get_param_total_on_covered hpFull (fun t => by cases t <;> decide)
    EdgeTypeTag.Dependency

/-- C2: removing a layer that still holds at least one node fails with a
distinguishable error (leaving the registry unchanged, as the functional
result carries no new registry), and a successful removal implies the
layer was absent or already drained of nodes. -/
theorem c2_remove_layer_rejects_nonempty (r : Registry) (layer : String) :
    (∀ g, Registry.graphOf layer r = some g → g.nodes ≠ [] →
      Registry.remove_layer r layer = Except.error "layer contains nodes") ∧
    (∀ r', Registry.remove_layer r layer = Except.ok r' →
      Registry.graphOf layer r = none ∨
        ∃ g, Registry.graphOf layer r = some g ∧ g.nodes = []) := by
  constructor
  · intro g hg hne
    simp only [Registry.remove_layer, hg, if_neg hne]
  · intro r' hok
    cases hg : Registry.graphOf layer r with
    | none => exact Or.inl rfl
    | some g =>
      by_cases hn : g.nodes = []
      · exact Or.inr ⟨g, rfl, hn⟩
      · simp only [Registry.remove_layer, hg, if_neg hn] at hok
        exact Except.noConfusion hok

/-- C2 (witness): removing the "osrank" layer while it holds node 1 is
rejected. -/
theorem c2_witness :
    Registry.remove_layer busyRegistry "osrank" = Except.error "layer contains nodes" :=
  (c2_remove_layer_rejects_nonempty busyRegistry "osrank").1 oneNodeGraph rfl (by decide)

/-- C3 (code bug evaluation): running Ledger::checkpoint with a single
contribution record on an empty osrank graph leaves exactly ONE edge —
both `add_edge` calls of the contribution loop use the identical id
`edge_id(node_id, c.node_id)`, so the `contribution -> project` insert
overwrites the `project -> contribution` edge instead of coexisting with
it, for every possible edge-id hash function. -/
theorem c3_checkpoint_keeps_single_contribution_edge (eid : Nat → Nat → Nat) :
    (Ledger.checkpoint eid Network.default 1 [] (List.replicate 32 0) []
        [{ node_id := 2 }]).edges =
      [(eid 1 2,
        { id := eid 1 2, source := 2, target := 1,
          data := [LedgerEdgeType.ContributionTo.code], weight := 0,
          edge_type := MainEdgeType.ContributionFromUser })] ∧
    (Ledger.checkpoint eid Network.default 1 [] (List.replicate 32 0) []
        [{ node_id := 2 }]).edges.length = 1 := by
  constructor
  · simp [Ledger.checkpoint, Network.add_node, Network.add_edge, BTMap.insert,
      lt_irrefl]
  · simp [Ledger.checkpoint, Network.add_node, Network.add_edge, BTMap.insert,
      lt_irrefl]

/-- C4 (counterexample): on a graph holding node 2 and a dangling edge
from the absent id 1 to node 2 (a state the GraphWriter API reaches, since
`add_edge` checks no endpoint and `remove_node` does not cascade),
`neighbors` of the unknown id 1 returns a NON-empty sequence; and on a
graph whose lone edge has both endpoints absent, `neighbors` of the
unknown id 1 faults at the node lookup (`none` models the panic). -/
theorem c4_counterexample :
    (BTMap.get 1 danglingGraph.nodes = none ∧
      Network.neighbors danglingGraph 1 =
        some [{ id := 2, data := [], node_type := NodeType.Project 0 }] ∧
      Network.neighbors danglingGraph 1 ≠ some []) ∧
    (BTMap.get 1 orphanGraph.nodes = none ∧
      Network.neighbors orphanGraph 1 = none) := by
  exact ⟨⟨rfl, rfl, by decide⟩, ⟨rfl, rfl⟩⟩

/-- C4 (amended): on a graph satisfying referential integrity (every edge
endpoint id is a key of the node map — the invariant of spec §3), lookups
of unknown ids are safe: `get_node` returns none, `neighbors` returns an
empty sequence without faulting, `edges` returns an empty sequence, and
`get_edge` of an unknown edge id returns none. -/
theorem c4_unknown_ids_safe (g : Network) (id eid0 : Nat)
    (hintact : Network.intact g)
    (hnode : BTMap.get id g.nodes = none)
    (hedge : BTMap.get eid0 g.edges = none) :
    Network.get_node g id = none ∧
    Network.neighbors g id = some [] ∧
    Network.edgesOf g id = [] ∧
    Network.get_edge g eid0 = none := by
  have hnotouch : ∀ e ∈ BTMap.values g.edges, e.source ≠ id ∧ e.target ≠ id := by
    intro e he
    have h2 := hintact e he
    constructor
    · intro hs
      rw [hs, hnode] at h2
      simp at h2
    · intro ht
      rw [ht, hnode] at h2
      simp at h2
  refine ⟨hnode, ?_, ?_, hedge⟩
  · exact neighborsAux_eq_nil g id _ hnotouch
  · refine List.filter_eq_nil_iff.mpr ?_
    intro e he
    have h3 := hnotouch e he
    simp [h3.1, h3.2]

/-- C4 (witness): on the intact graph `exGraph`, the unknown node id 7 and
unknown edge id 99 are looked up safely. -/
theorem c4_witness :
    Network.get_node exGraph 7 = none ∧
    Network.neighbors exGraph 7 = some [] ∧
    Network.edgesOf exGraph 7 = [] ∧
    Network.get_edge exGraph 99 = none :=
  c4_unknown_ids_safe exGraph 7 99 (by decide) rfl rfl

/-- C5: the tag of a payload-carrying EdgeType is independent of its
numeric payload, for each of the four payload-carrying constructors, and
hence `get_param` resolves both to the same hyperparameter weight. -/
theorem c5_weight_ignores_payload {W : Type} (hp : HyperParameters W) (a b : Nat) :
    ((EdgeType.ProjectToUserContribution a).to_tag =
        (EdgeType.ProjectToUserContribution b).to_tag ∧
      hp.get_param (EdgeType.ProjectToUserContribution a).to_tag =
        hp.get_param (EdgeType.ProjectToUserContribution b).to_tag) ∧
    ((EdgeType.UserToProjectContribution a).to_tag =
        (EdgeType.UserToProjectContribution b).to_tag ∧
      hp.get_param (EdgeType.UserToProjectContribution a).to_tag =
        hp.get_param (EdgeType.UserToProjectContribution b).to_tag) ∧
    ((EdgeType.ProjectToUserMembership a).to_tag =
        (EdgeType.ProjectToUserMembership b).to_tag ∧
      hp.get_param (EdgeType.ProjectToUserMembership a).to_tag =
        hp.get_param (EdgeType.ProjectToUserMembership b).to_tag) ∧
    ((EdgeType.UserToProjectMembership a).to_tag =
        (EdgeType.UserToProjectMembership b).to_tag ∧
      hp.get_param (EdgeType.UserToProjectMembership a).to_tag =
        hp.get_param (EdgeType.UserToProjectMembership b).to_tag) :=
  ⟨⟨rfl, rfl⟩, ⟨rfl, rfl⟩, ⟨rfl, rfl⟩, ⟨rfl, rfl⟩⟩

/-- C6: inserting a duplicate node id overwrites — after
`add_node(id, d1)` then `add_node(id, d2)`, `get_node(id)` returns the
node carrying `d2`, and the node map equals the one obtained by a single
`add_node(id, d2)` (no alias entry is created). -/
theorem c6_duplicate_add_overwrites (g : Network) (id : Nat) (d1 d2 : NodeData) :
    Network.get_node (Network.add_node (Network.add_node g id d1) id d2) id =
      some { id := id, data := d2, node_type := NodeType.Project 0 } ∧
    (Network.add_node (Network.add_node g id d1) id d2).nodes =
      (Network.add_node g id d2).nodes := by
  constructor
  · simp [Network.get_node, Network.add_node, BTMap.get_insert_self]
  · simp [Network.add_node, BTMap.insert_insert_same]

/-- C7: `add_node(id, data)` is idempotent — calling it twice with the
same arguments leaves the graph (node map and edge map) in exactly the
state of calling it once. -/
theorem c7_add_node_idempotent (g : Network) (id : Nat) (data : NodeData) :
    Network.add_node (Network.add_node g id data) id data =
      Network.add_node g id data := by
  simp [Network.add_node, BTMap.insert_insert_same]

/-- C8: every edge in the sequence returned by `edges(n)` has `n` as its
source or its target. -/
theorem c8_edges_touch_node (g : Network) (n : Nat) (e : Edge)
    (he : e ∈ Network.edgesOf g n) : e.source = n ∨ e.target = n := by
  have h := List.mem_filter.mp he
  simpa using h.2

/-- C8 (witness): the edge of `exGraph` returned by `edges(1)` touches
node 1. -/
theorem c8_witness : exEdge.source = 1 ∨ exEdge.target = 1 :=
  c8_edges_touch_node exGraph 1 exEdge (by decide)

/-- C9 (counterexample): on a graph holding nodes 1 and 2, the edge
10 : 1 → 2, and one further dangling edge 11 : 1 → 4, the premise of the
claim holds, yet `neighbors(1)` faults at the `.unwrap()` of the absent
node 4 (modelled as `none`), so node 2 appears in no returned sequence. -/
theorem c9_counterexample :
    Network.get_node partlyDanglingGraph 1 =
      some { id := 1, data := [], node_type := NodeType.Project 0 } ∧
    Network.get_node partlyDanglingGraph 2 =
      some { id := 2, data := [], node_type := NodeType.Project 0 } ∧
    Network.get_edge partlyDanglingGraph 10 = some exEdge ∧
    Network.neighbors partlyDanglingGraph 1 = none := by
  exact ⟨rfl, rfl, rfl, rfl⟩

/-- C9 (amended): on a graph satisfying referential integrity, if an edge
from `a` to `b` is present then the node stored at `b` appears in
`neighbors(a)` and the node stored at `a` appears in `neighbors(b)`
(neither call faults). -/
theorem c9_neighbors_symmetric_intact (g : Network) (e : Edge) (a b : Nat)
    (hintact : Network.intact g) (he : e ∈ BTMap.values g.edges)
    (hsrc : e.source = a) (htgt : e.target = b) :
    ∃ na nb nsa nsb,
      BTMap.get a g.nodes = some na ∧ BTMap.get b g.nodes = some nb ∧
      Network.neighbors g a = some nsa ∧ nb ∈ nsa ∧
      Network.neighbors g b = some nsb ∧ na ∈ nsb := by
  obtain ⟨hsa, hta⟩ := hintact e he
  obtain ⟨na, hna⟩ := Option.isSome_iff_exists.mp hsa
  obtain ⟨nb, hnb⟩ := Option.isSome_iff_exists.mp hta
  obtain ⟨nsa, hnsa⟩ := neighborsAux_isSome g a _ hintact
  obtain ⟨nsb, hnsb⟩ := neighborsAux_isSome g b _ hintact
  refine ⟨na, nb, nsa, nsb, ?_, ?_, hnsa, ?_, hnsb, ?_⟩
  · rw [← hsrc]
    exact hna
  · rw [← htgt]
    exact hnb
  · exact neighborsAux_mem_of_source g a _ e he hsrc nb hnb nsa hnsa
  · by_cases hab : e.source = b
    · exact neighborsAux_mem_of_source g b _ e he hab na
        (by rw [htgt, ← hab]; exact hna) nsb hnsb
    · exact neighborsAux_mem_of_target g b _ e he hab htgt na hna nsb hnsb

/-- C9 (witness): in the intact graph `exGraph` with edge 10 : 1 → 2,
node 2 is a neighbor of node 1 and vice versa. -/
theorem c9_witness :
    ∃ na nb nsa nsb,
      BTMap.get 1 exGraph.nodes = some na ∧ BTMap.get 2 exGraph.nodes = some nb ∧
      Network.neighbors exGraph 1 = some nsa ∧ nb ∈ nsa ∧
      Network.neighbors exGraph 2 = some nsb ∧ na ∈ nsb :=
  c9_neighbors_symmetric_intact exGraph exEdge 1 2 (by decide) (by decide) rfl rfl

/-- C10: `neighbors` is total on every query id provided the graph
satisfies referential integrity; and whenever some edge has an endpoint id
with no corresponding node, querying `neighbors` of the edge's other
endpoint faults at the node lookup (`none` models the panic) instead of
skipping the edge or returning an absence value. -/
theorem c10_neighbors_totality (g : Network) :
    (Network.intact g → ∀ q, (Network.neighbors g q).isSome = true) ∧
    (∀ e ∈ BTMap.values g.edges, BTMap.get e.target g.nodes = none →
      Network.neighbors g e.source = none) ∧
    (∀ e ∈ BTMap.values g.edges, BTMap.get e.source g.nodes = none →
      Network.neighbors g e.target = none) := by
  refine ⟨?_, ?_, ?_⟩
  · intro h q
    obtain ⟨ns, hns⟩ := neighborsAux_isSome g q _ h
    rw [Network.neighbors, hns]
    rfl
  · intro e he hnone
    exact neighborsAux_none_of_bad g e.source _ e he (Or.inl ⟨rfl, hnone⟩)
  · intro e he hnone
    by_cases hst : e.source = e.target
    · exact neighborsAux_none_of_bad g e.target _ e he
        (Or.inl ⟨hst, by rw [← hst]; exact hnone⟩)
    · exact neighborsAux_none_of_bad g e.target _ e he (Or.inr ⟨hst, rfl, hnone⟩)

/-- C10 (witness): on the intact graph `exGraph`, `neighbors(1)` succeeds;
on `orphanGraph`, whose edge 3 : 1 → 2 has the absent target 2, querying
the other endpoint 1 faults. -/
theorem c10_witness :
    (Network.neighbors exGraph 1).isSome = true ∧
    Network.neighbors orphanGraph 1 = none :=
  ⟨(c10_neighbors_totality exGraph).1 (by decide) 1,
   (c10_neighbors_totality orphanGraph).2.1
     { id := 3, source := 1, target := 2, data := [], weight := 0,
       edge_type := MainEdgeType.ContributionFromUser } (by decide) rfl⟩

end Oscoin
